import Mathlib

/-!
Verification of the grid-trading signal core (rust-grid-trader).

Shallow embedding of the repository's decision logic in Lean 4.
Rust `Decimal` values are modelled as exact rationals (`ℚ`), `DateTime`
timestamps as integers, `Duration` as natural numbers, `VecDeque` as
`List` (head = front/oldest), and `BTreeSet` as `Finset ℚ` iterated in
ascending order via `Finset.sort`.
-/

namespace GridTrader

/-! ## PositionSizer (src/algorithm/position.rs) -/

/-- Round a rational to the nearest integer, ties to even
(`rust_decimal`'s default `MidpointNearestEven` used by `round_dp`). -/
def roundHalfEven (x : ℚ) : ℤ :=
  let n : ℤ := ⌊x⌋
  let f : ℚ := x - n
  if f < 1 / 2 then n
  else if 1 / 2 < f then n + 1
  else if n % 2 = 0 then n else n + 1

/-- `Decimal::round_dp(8)`: round to 8 decimal places. -/
def roundDp8 (x : ℚ) : ℚ :=
  (roundHalfEven (x * 100000000) : ℚ) / 100000000

/-- `PositionSizer` (position.rs lines 4-8). -/
structure PositionSizer where
  wallet_size : ℚ
  risk_percentage : ℚ
deriving DecidableEq

namespace PositionSizer

/-- `PositionSizer::new` (position.rs lines 12-17): default risk 0.5%. -/
def new (wallet_size : ℚ) : PositionSizer :=
  { wallet_size := wallet_size, risk_percentage := 5 / 1000 }

/-- `PositionSizer::with_risk` (position.rs lines 20-25). -/
def with_risk (wallet_size risk_percentage : ℚ) : PositionSizer :=
  { wallet_size := wallet_size, risk_percentage := risk_percentage }

/-- `PositionSizer::calculate_quantity` (position.rs lines 34-47). -/
def calculate_quantity (ps : PositionSizer) (price : ℚ) : ℚ :=
  if price ≤ 0 then 0
  else roundDp8 (ps.wallet_size * ps.risk_percentage / price)

/-- `PositionSizer::calculate_position_value` (position.rs lines 56-59). -/
def calculate_position_value (ps : PositionSizer) (price : ℚ) : ℚ :=
  ps.calculate_quantity price * price

end PositionSizer

/-- **C5** The position sizer: non-positive prices size to zero quantity;
positive prices give `round_dp8((wallet_size * risk_percentage) / price)`;
and the position value is always `quantity * price`. -/
theorem c5_position_sizer (ps : PositionSizer) (price : ℚ) :
    (price ≤ 0 → ps.calculate_quantity price = 0) ∧
    (0 < price →
      ps.calculate_quantity price =
        roundDp8 (ps.wallet_size * ps.risk_percentage / price)) ∧
    ps.calculate_position_value price = ps.calculate_quantity price * price := by
  refine ⟨fun h => ?_, fun h => ?_, rfl⟩
  · simp [PositionSizer.calculate_quantity, h]
  · simp [PositionSizer.calculate_quantity, not_le.mpr h]

/-- Witness for C5 at a concrete sizer and price: wallet 50000, risk 0.5%,
price 50000 gives quantity 0.005 and position value 250. -/
theorem c5_position_sizer_witness :
    ((0 : ℚ) < 50000 ∧
      (PositionSizer.new 50000).calculate_quantity 50000 =
        roundDp8 ((PositionSizer.new 50000).wallet_size *
          (PositionSizer.new 50000).risk_percentage / 50000)) ∧
    (PositionSizer.new 50000).calculate_position_value 50000 =
      (PositionSizer.new 50000).calculate_quantity 50000 * 50000 := by
  have h := c5_position_sizer (PositionSizer.new 50000) 50000
  exact ⟨⟨by norm_num, h.2.1 (by norm_num)⟩, h.2.2⟩

/-! ## SMA (src/algorithm/indicators/sma.rs) -/

/-- `SMA` state (sma.rs lines 4-9): the `VecDeque` of prices is a list
whose head is the front (oldest) element. -/
structure SMA where
  period : ℕ
  prices : List ℚ
  current_value : Option ℚ
deriving DecidableEq

namespace SMA

/-- `SMA::new` (sma.rs lines 12-18). -/
def new (period : ℕ) : SMA := ⟨period, [], none⟩

/-- `SMA::update` (sma.rs lines 20-33): push back, pop front when the
length exceeds `period`, recompute the mean when length ≥ `period`. -/
def update (s : SMA) (price : ℚ) : SMA :=
  let prices := s.prices ++ [price]
  let prices := if s.period < prices.length then prices.tail else prices
  let current_value :=
    if s.period ≤ prices.length then some (prices.sum / (s.period : ℚ))
    else s.current_value
  ⟨s.period, prices, current_value⟩

/-- `SMA::value` (sma.rs lines 35-37). -/
def value (s : SMA) : Option ℚ := s.current_value

/-- `SMA::is_ready` (sma.rs lines 39-41). -/
def is_ready (s : SMA) : Bool := s.period ≤ s.prices.length

/-- Feed a sequence of prices to a fresh SMA of the given period. -/
def run (period : ℕ) (ps : List ℚ) : SMA := ps.foldl update (new period)

end SMA

/-- The last `n` elements of a list. -/
def lastN (n : ℕ) (l : List ℚ) : List ℚ := l.drop (l.length - n)

theorem lastN_of_le {n : ℕ} {l : List ℚ} (h : l.length ≤ n) :
    lastN n l = l := by
  simp [lastN, Nat.sub_eq_zero_of_le h]

theorem lastN_length (n : ℕ) (l : List ℚ) :
    (lastN n l).length = min n l.length := by
  simp [lastN]
  omega

theorem lastN_append_of_ge {n : ℕ} {l : List ℚ} (p : ℚ)
    (hn : 0 < n) (h : n ≤ l.length) :
    lastN n (l ++ [p]) = (lastN n l).tail ++ [p] := by
  have h1 : l.length + 1 - n ≤ l.length := by omega
  have h2 : (l ++ [p]).length - n = l.length + 1 - n := by
    simp
  rw [lastN, h2, List.drop_append_of_le_length h1, lastN, List.tail_drop]
  congr 2
  omega

/-- Closed form for feeding a price list to a fresh SMA: retained prices
are the last `P` fed, and the value is their mean once `P` prices arrived. -/
theorem SMA.run_eq (P : ℕ) (hP : 0 < P) (ps : List ℚ) :
    SMA.run P ps = ⟨P, lastN P ps,
      if ps.length < P then none
      else some ((lastN P ps).sum / (P : ℚ))⟩ := by
  induction ps using List.reverseRecOn with
  | nil =>
    simp only [SMA.run, List.foldl_nil, SMA.new, lastN, List.drop_nil]
    simp [hP]
  | append_singleton l p ih =>
    have hrun : SMA.run P (l ++ [p]) = SMA.update (SMA.run P l) p := by
      simp [SMA.run, List.foldl_append]
    rw [hrun, ih]
    by_cases hlt : l.length < P
    · have hfull : lastN P l = l := lastN_of_le (by omega)
      have hfull2 : lastN P (l ++ [p]) = l ++ [p] :=
        lastN_of_le (by simp; omega)
      simp only [SMA.update, hfull, hfull2, hlt, if_true]
      have hc1 : ¬ P < (l ++ [p]).length := by simp; omega
      have hc2 : (P ≤ (l ++ [p]).length) ↔ ¬ ((l ++ [p]).length < P) := by
        constructor <;> (intro hx; omega)
      simp only [hc1, if_false]
      simp only [List.length_append, List.length_singleton, List.sum_append,
        List.sum_singleton]
      split_ifs <;> first | rfl | omega
    · have hge : P ≤ l.length := by omega
      have hlen : (lastN P l).length = P := by
        rw [lastN_length]; omega
      have hne : ¬ (l.length < P) := hlt
      simp only [hne, if_false]
      have htail : lastN P (l ++ [p]) = (lastN P l).tail ++ [p] :=
        lastN_append_of_ge p hP hge
      have htailne : lastN P l ≠ [] := by
        intro hcon
        rw [hcon] at hlen
        simp at hlen
        omega
      obtain ⟨a, t, hat⟩ := List.exists_cons_of_ne_nil htailne
      have hcond : P < (lastN P l ++ [p]).length := by
        simp [hlen]
      have htail2 : (lastN P l ++ [p]).tail = (lastN P l).tail ++ [p] := by
        rw [hat]; simp
      have hlen2 : ((lastN P l).tail ++ [p]).length = P := by
        rw [hat] at hlen ⊢
        simp at hlen ⊢
        omega
      simp only [SMA.update, hcond, if_true, htail2, hlen2, le_refl, if_true]
      have hne2 : ¬ ((l ++ [p]).length < P) := by simp; omega
      simp [hne2, htail]
      omega

/-- **C2** SMA sliding window: with period `P > 0`, after fewer than `P`
updates the value is undefined; at exactly `P` updates it is the mean of
all fed prices; and for `P` or more updates the FIFO retains exactly the
last `P` prices and the value is their mean. -/
theorem c2_sma_sliding_window (P : ℕ) (ps : List ℚ) (hP : 0 < P) :
    (ps.length < P → (SMA.run P ps).value = none) ∧
    (ps.length = P → (SMA.run P ps).value = some (ps.sum / (P : ℚ))) ∧
    (P ≤ ps.length →
      (SMA.run P ps).prices = lastN P ps ∧
      (SMA.run P ps).prices.length = P ∧
      (SMA.run P ps).value = some ((lastN P ps).sum / (P : ℚ))) := by
  rw [SMA.run_eq P hP ps]
  refine ⟨fun h => ?_, fun h => ?_, fun h => ⟨rfl, ?_, ?_⟩⟩
  · simp [SMA.value, h]
  · have : ¬ (ps.length < P) := by omega
    simp [SMA.value, this, lastN_of_le (le_of_eq h)]
  · rw [lastN_length]; omega
  · have : ¬ (ps.length < P) := by omega
    simp [SMA.value, this]

/-- Witness for C2: period 2 over prices [1, 2, 3] retains [2, 3] and
values to 5/2. -/
theorem c2_sma_sliding_window_witness :
    (0 < 2 ∧ 2 ≤ ([(1 : ℚ), 2, 3]).length) ∧
    (SMA.run 2 [(1 : ℚ), 2, 3]).prices = [(2 : ℚ), 3] ∧
    (SMA.run 2 [(1 : ℚ), 2, 3]).value = some (5 / 2) := by
  have h := (c2_sma_sliding_window 2 [(1 : ℚ), 2, 3] (by norm_num)).2.2
    (by norm_num)
  refine ⟨⟨by norm_num, by norm_num⟩, ?_, ?_⟩
  · rw [h.1]; rfl
  · rw [h.2.2]; norm_num [lastN]

/-! ## Grid strategy (src/algorithm/grid.rs) -/

/-- `GridZone` (grid.rs lines 26-31). -/
inductive GridZone
  | AboveHighBand
  | BetweenBands
  | BelowLowBand
deriving DecidableEq

/-- `TmaState` (grid.rs lines 33-38). -/
inductive TmaState
  | BullishTrend
  | BearishTrend
  | Sideways
deriving DecidableEq

/-- `SignalType` (grid.rs lines 40-45). -/
inductive SignalType
  | Buy
  | Sell
  | None
deriving DecidableEq

/-- `GridLevelType` (grid.rs lines 54-58). -/
inductive GridLevelType
  | Buy
  | Sell
deriving DecidableEq

/-- `InstrumentGridState` (grid.rs lines 75-85); the `BTreeSet`s become
`Finset ℚ`, iterated in ascending order where the code iterates them. -/
structure InstrumentGridState where
  current_price : ℚ
  price_history : List ℚ
  buy_levels : Finset ℚ
  sell_levels : Finset ℚ
  filled_levels : Finset ℚ
  grid_spacing : ℚ
  last_grid_zone : GridZone
  last_tma_state : TmaState
deriving DecidableEq

/-- The configuration fields of `Grid` (grid.rs lines 87-95) that the
signal logic reads (the position sizer only affects order construction). -/
structure GridConfig where
  band_percentage : ℚ
  tma_period : ℕ
  grid_spacing_percentage : ℚ
  max_grid_levels : ℕ
  price_history_length : ℕ
deriving DecidableEq

/-- `GridSignal` (grid.rs lines 60-73), restricted to its numeric payload
(the instrument/exchange identities and log string are identity data). -/
structure GridSignal where
  signal_type : SignalType
  price : ℚ
  tma : ℚ
  high_band : ℚ
  low_band : ℚ
  volatility : ℚ
  grid_level : Option ℚ
deriving DecidableEq

namespace Grid

/-- `Grid::calculate_tma` (grid.rs lines 135-139): pass-through of SMA. -/
def calculate_tma (_cfg : GridConfig) (sma : ℚ) : ℚ := sma

/-- `Grid::calculate_bands` (grid.rs lines 142-147). -/
def calculate_bands (cfg : GridConfig) (tma : ℚ) : ℚ × ℚ :=
  let band_offset := tma * cfg.band_percentage
  (tma + band_offset, tma - band_offset)

/-- `Grid::calculate_volatility` (grid.rs lines 150-155). -/
def calculate_volatility (_cfg : GridConfig) (high_band low_band tma : ℚ) : ℚ :=
  if tma = 0 then 0 else ((high_band - low_band) / tma) * 100

/-- `Grid::determine_grid_zone` (grid.rs lines 158-166). -/
def determine_grid_zone (_cfg : GridConfig) (price high_band low_band : ℚ) :
    GridZone :=
  if high_band < price then GridZone.AboveHighBand
  else if price < low_band then GridZone.BelowLowBand
  else GridZone.BetweenBands

/-- `Grid::determine_tma_state` (grid.rs lines 169-178). -/
def determine_tma_state (_cfg : GridConfig) (price tma previous_price : ℚ) :
    TmaState :=
  match decide (tma < price), decide (tma < previous_price) with
  | true, true => TmaState.BullishTrend
  | false, false => TmaState.BearishTrend
  | _, _ => TmaState.Sideways

/-- `Grid::calculate_grid_spacing` (grid.rs lines 181-194). -/
def calculate_grid_spacing (cfg : GridConfig) (price volatility : ℚ) : ℚ :=
  let base_spacing := price * cfg.grid_spacing_percentage
  let volatility_multiplier : ℚ :=
    if 5 < volatility then 3 / 2
    else if volatility < 2 then 7 / 10
    else 1
  base_spacing * volatility_multiplier

/-- `Grid::generate_grid_levels` (grid.rs lines 197-217): buy levels at
`price - spacing*i`, kept only when positive, sell levels at
`price + spacing*i`, for i = 1..=max_grid_levels. -/
def generate_grid_levels (cfg : GridConfig) (current_price _tma volatility : ℚ) :
    Finset ℚ × Finset ℚ :=
  let grid_spacing := calculate_grid_spacing cfg current_price volatility
  let buy_levels := ((Finset.range cfg.max_grid_levels).image
      (fun i : ℕ => current_price - grid_spacing * ((i : ℚ) + 1))).filter
      (fun L => 0 < L)
  let sell_levels := (Finset.range cfg.max_grid_levels).image
      (fun i : ℕ => current_price + grid_spacing * ((i : ℚ) + 1))
  (buy_levels, sell_levels)

/-- `Grid::update_price_history` (grid.rs lines 220-225). -/
def update_price_history (cfg : GridConfig) (price_history : List ℚ)
    (new_price : ℚ) : List ℚ :=
  let h := price_history ++ [new_price]
  if cfg.price_history_length < h.length then h.tail else h

/-- `Grid::analyze_price_ranges` (grid.rs lines 228-238); consumed only by
the setup log line. -/
def analyze_price_ranges (_cfg : GridConfig) (price_history : List ℚ) :
    ℚ × ℚ × ℚ :=
  if price_history = [] then (0, 0, 0)
  else
    (price_history.foldr min 0, price_history.foldr max 0,
      price_history.sum / (price_history.length : ℚ))

/-- `Grid::check_grid_level_crosses` (grid.rs lines 241-264): unfilled buy
levels with `previous_price > level ∧ current_price ≤ level`, then unfilled
sell levels with `previous_price < level ∧ current_price ≥ level`, each set
iterated in ascending order. -/
def check_grid_level_crosses (grid_state : InstrumentGridState)
    (current_price : ℚ) : List (ℚ × GridLevelType) :=
  let previous_price := grid_state.current_price
  let buy_crosses := ((grid_state.buy_levels.sort (· ≤ ·)).filter
      (fun L => decide (L ∉ grid_state.filled_levels ∧ L < previous_price ∧
        current_price ≤ L))).map (fun L => (L, GridLevelType.Buy))
  let sell_crosses := ((grid_state.sell_levels.sort (· ≤ ·)).filter
      (fun L => decide (L ∉ grid_state.filled_levels ∧ previous_price < L ∧
        L ≤ current_price))).map (fun L => (L, GridLevelType.Sell))
  buy_crosses ++ sell_crosses

/-- `Grid::should_generate_grid_signal` (grid.rs lines 267-283). -/
def should_generate_grid_signal (previous_zone current_zone : GridZone)
    (tma_state : TmaState) : Bool :=
  match previous_zone, current_zone, tma_state with
  | GridZone.BelowLowBand, GridZone.BetweenBands, _ => true
  | GridZone.AboveHighBand, GridZone.BetweenBands, _ => true
  | GridZone.BetweenBands, GridZone.BelowLowBand, TmaState.BullishTrend => true
  | GridZone.BetweenBands, GridZone.AboveHighBand, TmaState.BearishTrend => true
  | _, _, _ => false

/-- `Grid::get_grid_signal_type` (grid.rs lines 286-301). -/
def get_grid_signal_type (previous_zone current_zone : GridZone)
    (tma_state : TmaState) : SignalType :=
  match previous_zone, current_zone, tma_state with
  | GridZone.BelowLowBand, GridZone.BetweenBands, _ => SignalType.Buy
  | GridZone.BetweenBands, GridZone.BelowLowBand, TmaState.BullishTrend =>
      SignalType.Buy
  | GridZone.AboveHighBand, GridZone.BetweenBands, _ => SignalType.Sell
  | GridZone.BetweenBands, GridZone.AboveHighBand, TmaState.BearishTrend =>
      SignalType.Sell
  | _, _, _ => SignalType.None

/-- The `match level_type` in grid.rs lines 377-380. -/
def signal_type_of_level : GridLevelType → SignalType
  | GridLevelType.Buy => SignalType.Buy
  | GridLevelType.Sell => SignalType.Sell

/-- `Grid::process_instrument_signal` (grid.rs lines 303-433). The live
price and SMA reads (lines 308-309) are the two `Option` arguments; the
per-instrument map entry for this instrument is the third. -/
def process_instrument_signal (cfg : GridConfig) (live_price live_sma : Option ℚ)
    (entry : Option InstrumentGridState) :
    List GridSignal × Option InstrumentGridState :=
  match live_price, live_sma with
  | some price, some sma =>
    let tma := calculate_tma cfg sma
    let bands := calculate_bands cfg tma
    let high_band := bands.1
    let low_band := bands.2
    let volatility := calculate_volatility cfg high_band low_band tma
    let current_zone := determine_grid_zone cfg price high_band low_band
    let gs0 := entry.getD
      { current_price := price
        price_history := [price]
        buy_levels := ∅
        sell_levels := ∅
        filled_levels := ∅
        grid_spacing := calculate_grid_spacing cfg price volatility
        last_grid_zone := GridZone.BetweenBands
        last_tma_state := TmaState.Sideways }
    let previous_zone := gs0.last_grid_zone
    let previous_price := gs0.current_price
    let gs1 := { gs0 with
      price_history := update_price_history cfg gs0.price_history price }
    let _ranges := analyze_price_ranges cfg gs1.price_history
    let tma_state := determine_tma_state cfg price tma previous_price
    let gs2 :=
      if gs1.buy_levels = ∅ ∨ gs1.sell_levels = ∅ then
        let levels := generate_grid_levels cfg price tma volatility
        { gs1 with buy_levels := levels.1, sell_levels := levels.2 }
      else gs1
    let level_crosses := check_grid_level_crosses gs2 price
    let cross_signals := level_crosses.map (fun c : ℚ × GridLevelType =>
      { signal_type := signal_type_of_level c.2
        price := c.1
        tma := tma
        high_band := high_band
        low_band := low_band
        volatility := volatility
        grid_level := some c.1 })
    let gs3 := { gs2 with
      filled_levels := level_crosses.foldl
        (fun acc (c : ℚ × GridLevelType) => insert c.1 acc)
        gs2.filled_levels }
    let signals :=
      if cross_signals.isEmpty then
        if should_generate_grid_signal previous_zone current_zone tma_state then
          match get_grid_signal_type previous_zone current_zone tma_state with
          | SignalType.None => []
          | ty => [{ signal_type := ty, price := price, tma := tma,
                     high_band := high_band, low_band := low_band,
                     volatility := volatility, grid_level := none }]
        else []
      else cross_signals
    let gs4 := { gs3 with
      current_price := price
      last_grid_zone := current_zone
      last_tma_state := tma_state }
    (signals, some gs4)
  | _, _ => ([], entry)

end Grid

/-! ### Supporting lemmas about the grid operations -/

theorem Grid.mem_check_crosses_buy (s : InstrumentGridState) (price L : ℚ) :
    (L, GridLevelType.Buy) ∈ Grid.check_grid_level_crosses s price ↔
      L ∈ s.buy_levels ∧ L ∉ s.filled_levels ∧ L < s.current_price ∧
        price ≤ L := by
  unfold Grid.check_grid_level_crosses
  simp only [List.mem_append, List.mem_map, List.mem_filter, Finset.mem_sort,
    decide_eq_true_eq, Prod.mk.injEq]
  constructor
  · rintro (⟨a, ⟨ha, hf, h1, h2⟩, haL, -⟩ | ⟨a, -, -, hcon⟩)
    · subst haL; exact ⟨ha, hf, h1, h2⟩
    · cases hcon
  · rintro ⟨ha, hf, h1, h2⟩
    exact Or.inl ⟨L, ⟨ha, hf, h1, h2⟩, rfl, trivial⟩

theorem Grid.mem_check_crosses_sell (s : InstrumentGridState) (price L : ℚ) :
    (L, GridLevelType.Sell) ∈ Grid.check_grid_level_crosses s price ↔
      L ∈ s.sell_levels ∧ L ∉ s.filled_levels ∧ s.current_price < L ∧
        L ≤ price := by
  unfold Grid.check_grid_level_crosses
  simp only [List.mem_append, List.mem_map, List.mem_filter, Finset.mem_sort,
    decide_eq_true_eq, Prod.mk.injEq]
  constructor
  · rintro (⟨a, -, -, hcon⟩ | ⟨a, ⟨ha, hf, h1, h2⟩, haL, -⟩)
    · cases hcon
    · subst haL; exact ⟨ha, hf, h1, h2⟩
  · rintro ⟨ha, hf, h1, h2⟩
    exact Or.inr ⟨L, ⟨ha, hf, h1, h2⟩, rfl, trivial⟩

theorem Grid.check_crosses_nodup (s : InstrumentGridState) (price : ℚ) :
    (Grid.check_grid_level_crosses s price).Nodup := by
  unfold Grid.check_grid_level_crosses
  apply List.Nodup.append
  · exact ((Finset.sort_nodup _ _).filter _).map
      (fun a b h => by simpa using congrArg Prod.fst h)
  · exact ((Finset.sort_nodup _ _).filter _).map
      (fun a b h => by simpa using congrArg Prod.fst h)
  · intro x hx hx'
    simp only [List.mem_map] at hx hx'
    obtain ⟨a, -, ha⟩ := hx
    obtain ⟨b, -, hb⟩ := hx'
    rw [← ha] at hb
    cases hb

theorem Grid.not_filled_of_mem_crosses (s : InstrumentGridState) (price : ℚ)
    (c : ℚ × GridLevelType) (hc : c ∈ Grid.check_grid_level_crosses s price) :
    c.1 ∉ s.filled_levels := by
  obtain ⟨L, ty⟩ := c
  cases ty
  · exact ((Grid.mem_check_crosses_buy s price L).mp hc).2.1
  · exact ((Grid.mem_check_crosses_sell s price L).mp hc).2.1

theorem mem_foldl_insert (L : ℚ) (cs : List (ℚ × GridLevelType))
    (init : Finset ℚ) :
    L ∈ cs.foldl (fun acc (c : ℚ × GridLevelType) => insert c.1 acc) init ↔
      L ∈ init ∨ ∃ ty, (L, ty) ∈ cs := by
  induction cs generalizing init with
  | nil => simp
  | cons c cs ih =>
    simp only [List.foldl_cons, ih, Finset.mem_insert, List.mem_cons]
    constructor
    · rintro ((h | h) | ⟨ty, hty⟩)
      · exact Or.inr ⟨c.2, Or.inl (by rw [h])⟩
      · exact Or.inl h
      · exact Or.inr ⟨ty, Or.inr hty⟩
    · rintro (h | ⟨ty, (h | h)⟩)
      · exact Or.inl (Or.inr h)
      · exact Or.inl (Or.inl (congrArg Prod.fst h))
      · exact Or.inr ⟨ty, h⟩

theorem countP_eq_one_of_nodup {α : Type} (p : α → Bool)
    (l : List α) (a : α) (hn : l.Nodup) (hp : ∀ x, p x = true ↔ x = a)
    (hm : a ∈ l) : l.countP p = 1 := by
  induction l with
  | nil => simp at hm
  | cons b t ih =>
    obtain ⟨hbt, htn⟩ := List.nodup_cons.mp hn
    rcases List.mem_cons.mp hm with h | h
    · subst h
      have hz : t.countP p = 0 := List.countP_eq_zero.mpr (fun x hx hpx =>
        hbt (((hp x).mp hpx) ▸ hx))
      rw [List.countP_cons, hz, (hp a).mpr rfl]
      simp
    · have hpb : p b = false := by
        cases hpbv : p b with
        | false => rfl
        | true => exact absurd (((hp b).mp hpbv) ▸ h) hbt
      rw [List.countP_cons, ih htn h, hpb]
      simp

theorem countP_eq_of_nodup {α : Type} (p : α → Bool)
    (l : List α) (a : α) (hn : l.Nodup) (hp : ∀ x, p x = true ↔ x = a)
    [Decidable (a ∈ l)] :
    l.countP p = if a ∈ l then 1 else 0 := by
  split_ifs with hm
  · exact countP_eq_one_of_nodup p l a hn hp hm
  · exact List.countP_eq_zero.mpr (fun x hx hpx => hm (((hp x).mp hpx) ▸ hx))

theorem Grid.should_iff_signal_type (pz cz : GridZone) (t : TmaState) :
    Grid.should_generate_grid_signal pz cz t = true ↔
      Grid.get_grid_signal_type pz cz t ≠ SignalType.None := by
  cases pz <;> cases cz <;> cases t <;>
    simp [Grid.should_generate_grid_signal, Grid.get_grid_signal_type]

/-- Unfolded form of `process_instrument_signal` when the per-instrument
entry exists and both level sets are non-empty (so no regeneration). -/
theorem Grid.process_eq_no_regen (cfg : GridConfig) (s : InstrumentGridState)
    (price sma : ℚ) (h1 : s.buy_levels ≠ ∅) (h2 : s.sell_levels ≠ ∅) :
    Grid.process_instrument_signal cfg (some price) (some sma) (some s) =
      (let tma := Grid.calculate_tma cfg sma
       let bands := Grid.calculate_bands cfg tma
       let volatility := Grid.calculate_volatility cfg bands.1 bands.2 tma
       let current_zone := Grid.determine_grid_zone cfg price bands.1 bands.2
       let tma_state := Grid.determine_tma_state cfg price tma s.current_price
       let crosses := Grid.check_grid_level_crosses s price
       let cross_signals := crosses.map (fun c : ℚ × GridLevelType =>
         { signal_type := Grid.signal_type_of_level c.2
           price := c.1
           tma := tma
           high_band := bands.1
           low_band := bands.2
           volatility := volatility
           grid_level := some c.1 })
       let signals :=
         if cross_signals.isEmpty then
           if Grid.should_generate_grid_signal s.last_grid_zone current_zone
               tma_state then
             match Grid.get_grid_signal_type s.last_grid_zone current_zone
                 tma_state with
             | SignalType.None => []
             | ty => [{ signal_type := ty, price := price, tma := tma,
                        high_band := bands.1, low_band := bands.2,
                        volatility := volatility, grid_level := none }]
           else []
         else cross_signals
       (signals,
        some { current_price := price
               price_history := Grid.update_price_history cfg s.price_history
                 price
               buy_levels := s.buy_levels
               sell_levels := s.sell_levels
               filled_levels := crosses.foldl
                 (fun acc (c : ℚ × GridLevelType) => insert c.1 acc)
                 s.filled_levels
               grid_spacing := s.grid_spacing
               last_grid_zone := current_zone
               last_tma_state := tma_state })) := by
  have hcond : ¬(s.buy_levels = ∅ ∨ s.sell_levels = ∅) := by simp [h1, h2]
  simp only [Grid.process_instrument_signal, Option.getD_some, if_neg hcond]
  rfl

/-- **C9** Volatility is total and never divides by zero: it is 0 when
`tma = 0` and `((high_band - low_band) / tma) * 100` otherwise; the bands
are built as `tma * (1 ± band_percentage)`. -/
theorem c9_volatility_total (cfg : GridConfig) (high_band low_band tma : ℚ) :
    (tma = 0 → Grid.calculate_volatility cfg high_band low_band tma = 0) ∧
    (tma ≠ 0 → Grid.calculate_volatility cfg high_band low_band tma =
      ((high_band - low_band) / tma) * 100) ∧
    (∀ t : ℚ, Grid.calculate_bands cfg t =
      (t * (1 + cfg.band_percentage), t * (1 - cfg.band_percentage))) := by
  refine ⟨fun h => ?_, fun h => ?_, fun t => ?_⟩
  · simp [Grid.calculate_volatility, h]
  · simp [Grid.calculate_volatility, h]
  · simp only [Grid.calculate_bands, Prod.mk.injEq]
    constructor <;> ring

/-- Witness for C9 with bands 105/95 around tma 100. -/
theorem c9_volatility_total_witness :
    ((100 : ℚ) ≠ 0) ∧
    Grid.calculate_volatility
        { band_percentage := 1 / 20, tma_period := 14,
          grid_spacing_percentage := 1 / 50, max_grid_levels := 10,
          price_history_length := 50 } 105 95 100 =
      (((105 : ℚ) - 95) / 100) * 100 := by
  refine ⟨by norm_num, ?_⟩
  exact (c9_volatility_total _ 105 95 100).2.1 (by norm_num)

/-- **C10** When the live price or the SMA value is unavailable, the
evaluation emits no signals and leaves the per-instrument entry unchanged
(in particular no entry is created). -/
theorem c10_missing_data_no_effect (cfg : GridConfig)
    (live_price live_sma : Option ℚ) (entry : Option InstrumentGridState)
    (h : live_price = none ∨ live_sma = none) :
    Grid.process_instrument_signal cfg live_price live_sma entry =
      ([], entry) := by
  rcases h with h | h
  · subst h; cases live_sma <;> rfl
  · subst h; cases live_price <;> rfl

/-- Witness for C10: missing price with an absent entry stays absent. -/
theorem c10_missing_data_no_effect_witness :
    ((none : Option ℚ) = none ∨ (some (3 : ℚ)) = none) ∧
    Grid.process_instrument_signal
        { band_percentage := 1 / 20, tma_period := 14,
          grid_spacing_percentage := 1 / 50, max_grid_levels := 10,
          price_history_length := 50 } none (some 3) none = ([], none) :=
  ⟨Or.inl rfl, c10_missing_data_no_effect _ none (some 3) none (Or.inl rfl)⟩

/-- **C4** The fallback signal is the pure zone-transition function:
BelowLowBand→BetweenBands gives Buy and AboveHighBand→BetweenBands gives
Sell for every trend, BetweenBands→BelowLowBand gives Buy only on a
bullish trend, BetweenBands→AboveHighBand gives Sell only on a bearish
trend, every other transition gives None; when no crossing fired the
evaluation emits exactly the fallback signal of
`(previous_zone, current_zone, trend)`, and when a crossing fired no
fallback signal (one with `grid_level = none`) is emitted. -/
theorem c4_fallback_signal (cfg : GridConfig) :
    (∀ t, Grid.get_grid_signal_type GridZone.BelowLowBand
        GridZone.BetweenBands t = SignalType.Buy) ∧
    (∀ t, Grid.get_grid_signal_type GridZone.AboveHighBand
        GridZone.BetweenBands t = SignalType.Sell) ∧
    (∀ t, Grid.get_grid_signal_type GridZone.BetweenBands
        GridZone.BelowLowBand t =
      if t = TmaState.BullishTrend then SignalType.Buy else SignalType.None) ∧
    (∀ t, Grid.get_grid_signal_type GridZone.BetweenBands
        GridZone.AboveHighBand t =
      if t = TmaState.BearishTrend then SignalType.Sell else SignalType.None) ∧
    (∀ pz cz t, ¬(pz = GridZone.BelowLowBand ∧ cz = GridZone.BetweenBands) →
      ¬(pz = GridZone.AboveHighBand ∧ cz = GridZone.BetweenBands) →
      ¬(pz = GridZone.BetweenBands ∧ cz = GridZone.BelowLowBand) →
      ¬(pz = GridZone.BetweenBands ∧ cz = GridZone.AboveHighBand) →
      Grid.get_grid_signal_type pz cz t = SignalType.None) ∧
    (∀ (s : InstrumentGridState) (price sma : ℚ),
      s.buy_levels ≠ ∅ → s.sell_levels ≠ ∅ →
      Grid.check_grid_level_crosses s price = [] →
      (Grid.process_instrument_signal cfg (some price) (some sma)
          (some s)).1 =
        (match Grid.get_grid_signal_type s.last_grid_zone
            (Grid.determine_grid_zone cfg price
              (Grid.calculate_bands cfg (Grid.calculate_tma cfg sma)).1
              (Grid.calculate_bands cfg (Grid.calculate_tma cfg sma)).2)
            (Grid.determine_tma_state cfg price (Grid.calculate_tma cfg sma)
              s.current_price) with
         | SignalType.None => []
         | ty =>
            [{ signal_type := ty, price := price,
               tma := Grid.calculate_tma cfg sma,
               high_band :=
                 (Grid.calculate_bands cfg (Grid.calculate_tma cfg sma)).1,
               low_band :=
                 (Grid.calculate_bands cfg (Grid.calculate_tma cfg sma)).2,
               volatility := Grid.calculate_volatility cfg
                 (Grid.calculate_bands cfg (Grid.calculate_tma cfg sma)).1
                 (Grid.calculate_bands cfg (Grid.calculate_tma cfg sma)).2
                 (Grid.calculate_tma cfg sma),
               grid_level := none }])) ∧
    (∀ (s : InstrumentGridState) (price sma : ℚ),
      s.buy_levels ≠ ∅ → s.sell_levels ≠ ∅ →
      Grid.check_grid_level_crosses s price ≠ [] →
      ∀ g ∈ (Grid.process_instrument_signal cfg (some price) (some sma)
          (some s)).1, g.grid_level ≠ none) := by
  refine ⟨fun t => rfl, fun t => rfl, fun t => ?_, fun t => ?_, ?_, ?_, ?_⟩
  · cases t <;> simp [Grid.get_grid_signal_type]
  · cases t <;> simp [Grid.get_grid_signal_type]
  · intro pz cz t hn1 hn2 hn3 hn4
    cases pz <;> cases cz <;> cases t <;>
      simp_all [Grid.get_grid_signal_type]
  · intro s price sma h1 h2 hcr
    rw [Grid.process_eq_no_regen cfg s price sma h1 h2]
    dsimp only
    rw [hcr]
    simp only [List.map_nil, List.isEmpty_nil, if_true]
    by_cases hsg : Grid.should_generate_grid_signal s.last_grid_zone
        (Grid.determine_grid_zone cfg price
          (Grid.calculate_bands cfg (Grid.calculate_tma cfg sma)).1
          (Grid.calculate_bands cfg (Grid.calculate_tma cfg sma)).2)
        (Grid.determine_tma_state cfg price (Grid.calculate_tma cfg sma)
          s.current_price) = true
    · rw [if_pos hsg]
    · rw [if_neg hsg]
      have hty := (not_iff_not.mpr (Grid.should_iff_signal_type _ _ _)).mp hsg
      rw [not_not] at hty
      rw [hty]
  · intro s price sma h1 h2 hcr g hg
    rw [Grid.process_eq_no_regen cfg s price sma h1 h2] at hg
    dsimp only at hg
    have hnem : ((Grid.check_grid_level_crosses s price).map
        (fun c : ℚ × GridLevelType =>
          ({ signal_type := Grid.signal_type_of_level c.2, price := c.1,
             tma := Grid.calculate_tma cfg sma,
             high_band :=
               (Grid.calculate_bands cfg (Grid.calculate_tma cfg sma)).1,
             low_band :=
               (Grid.calculate_bands cfg (Grid.calculate_tma cfg sma)).2,
             volatility := Grid.calculate_volatility cfg
               (Grid.calculate_bands cfg (Grid.calculate_tma cfg sma)).1
               (Grid.calculate_bands cfg (Grid.calculate_tma cfg sma)).2
               (Grid.calculate_tma cfg sma),
             grid_level := some c.1 } : GridSignal))).isEmpty = false := by
      simp [List.isEmpty_iff, hcr]
    rw [hnem] at hg
    simp only [Bool.false_eq_true, if_false, List.mem_map] at hg
    obtain ⟨c, -, hc⟩ := hg
    rw [← hc]
    simp

/-- Witness for C4: a non-crossing evaluation with previous and current
zone both BetweenBands emits no signal. -/
theorem c4_fallback_signal_witness :
    (({95, 90} : Finset ℚ) ≠ ∅ ∧ ({200} : Finset ℚ) ≠ ∅ ∧
      Grid.check_grid_level_crosses
        { current_price := 96, price_history := [96],
          buy_levels := {95, 90}, sell_levels := {200}, filled_levels := ∅,
          grid_spacing := 1, last_grid_zone := GridZone.BetweenBands,
          last_tma_state := TmaState.Sideways } 96 = []) ∧
    (Grid.process_instrument_signal
        { band_percentage := 1 / 2, tma_period := 14,
          grid_spacing_percentage := 1 / 50, max_grid_levels := 10,
          price_history_length := 50 } (some 96) (some 100)
        (some { current_price := 96, price_history := [96],
                buy_levels := {95, 90}, sell_levels := {200},
                filled_levels := ∅, grid_spacing := 1,
                last_grid_zone := GridZone.BetweenBands,
                last_tma_state := TmaState.Sideways })).1 = [] := by
  have hcr : Grid.check_grid_level_crosses
      { current_price := 96, price_history := [96],
        buy_levels := {95, 90}, sell_levels := {200}, filled_levels := ∅,
        grid_spacing := 1, last_grid_zone := GridZone.BetweenBands,
        last_tma_state := TmaState.Sideways } 96 = [] := by
    rw [List.eq_nil_iff_forall_not_mem]
    rintro ⟨L, ty⟩ hmem
    cases ty
    · have h := (Grid.mem_check_crosses_buy _ _ _).mp hmem
      dsimp only at h
      linarith [h.2.2.1, h.2.2.2]
    · have h := (Grid.mem_check_crosses_sell _ _ _).mp hmem
      dsimp only at h
      linarith [h.2.2.1, h.2.2.2]
  refine ⟨⟨by simp, by simp, hcr⟩, ?_⟩
  have h := (c4_fallback_signal
      { band_percentage := 1 / 2, tma_period := 14,
        grid_spacing_percentage := 1 / 50, max_grid_levels := 10,
        price_history_length := 50 }).2.2.2.2.2.1
      { current_price := 96, price_history := [96],
        buy_levels := {95, 90}, sell_levels := {200}, filled_levels := ∅,
        grid_spacing := 1, last_grid_zone := GridZone.BetweenBands,
        last_tma_state := TmaState.Sideways } 96 100
      (by simp) (by simp) hcr
  rw [h]
  norm_num [Grid.determine_grid_zone, Grid.determine_tma_state,
    Grid.calculate_bands, Grid.calculate_tma, Grid.get_grid_signal_type]

/-- **C3** Grid level (re)generation: spacing is
`price * grid_spacing_percentage * m` with the volatility multiplier
`m ∈ {1.5, 0.7, 1}`; generated buy levels are `price - spacing*i`
(`i = 1..max_grid_levels`, positive ones kept) and sell levels are
`price + spacing*i`; regeneration happens exactly when a level set is
empty (including first observation), and otherwise the level sets are
never changed by an evaluation. -/
theorem c3_level_generation (cfg : GridConfig) (price sma : ℚ) :
    (∀ p v, Grid.calculate_grid_spacing cfg p v =
      p * cfg.grid_spacing_percentage *
        (if 5 < v then 3 / 2 else if v < 2 then 7 / 10 else 1)) ∧
    (∀ p t v (L : ℚ), L ∈ (Grid.generate_grid_levels cfg p t v).1 ↔
      ∃ i : ℕ, 1 ≤ i ∧ i ≤ cfg.max_grid_levels ∧
        L = p - Grid.calculate_grid_spacing cfg p v * (i : ℚ) ∧ 0 < L) ∧
    (∀ p t v (L : ℚ), L ∈ (Grid.generate_grid_levels cfg p t v).2 ↔
      ∃ i : ℕ, 1 ≤ i ∧ i ≤ cfg.max_grid_levels ∧
        L = p + Grid.calculate_grid_spacing cfg p v * (i : ℚ)) ∧
    (∀ s : InstrumentGridState,
      (s.buy_levels = ∅ ∨ s.sell_levels = ∅) →
      (Grid.process_instrument_signal cfg (some price) (some sma)
          (some s)).2.map InstrumentGridState.buy_levels =
        some (Grid.generate_grid_levels cfg price
          (Grid.calculate_tma cfg sma)
          (Grid.calculate_volatility cfg
            (Grid.calculate_bands cfg (Grid.calculate_tma cfg sma)).1
            (Grid.calculate_bands cfg (Grid.calculate_tma cfg sma)).2
            (Grid.calculate_tma cfg sma))).1 ∧
      (Grid.process_instrument_signal cfg (some price) (some sma)
          (some s)).2.map InstrumentGridState.sell_levels =
        some (Grid.generate_grid_levels cfg price
          (Grid.calculate_tma cfg sma)
          (Grid.calculate_volatility cfg
            (Grid.calculate_bands cfg (Grid.calculate_tma cfg sma)).1
            (Grid.calculate_bands cfg (Grid.calculate_tma cfg sma)).2
            (Grid.calculate_tma cfg sma))).2) ∧
    ((Grid.process_instrument_signal cfg (some price) (some sma)
          none).2.map InstrumentGridState.buy_levels =
        some (Grid.generate_grid_levels cfg price
          (Grid.calculate_tma cfg sma)
          (Grid.calculate_volatility cfg
            (Grid.calculate_bands cfg (Grid.calculate_tma cfg sma)).1
            (Grid.calculate_bands cfg (Grid.calculate_tma cfg sma)).2
            (Grid.calculate_tma cfg sma))).1 ∧
      (Grid.process_instrument_signal cfg (some price) (some sma)
          none).2.map InstrumentGridState.sell_levels =
        some (Grid.generate_grid_levels cfg price
          (Grid.calculate_tma cfg sma)
          (Grid.calculate_volatility cfg
            (Grid.calculate_bands cfg (Grid.calculate_tma cfg sma)).1
            (Grid.calculate_bands cfg (Grid.calculate_tma cfg sma)).2
            (Grid.calculate_tma cfg sma))).2) ∧
    (∀ s : InstrumentGridState, s.buy_levels ≠ ∅ → s.sell_levels ≠ ∅ →
      (Grid.process_instrument_signal cfg (some price) (some sma)
          (some s)).2.map InstrumentGridState.buy_levels =
        some s.buy_levels ∧
      (Grid.process_instrument_signal cfg (some price) (some sma)
          (some s)).2.map InstrumentGridState.sell_levels =
        some s.sell_levels) := by
  refine ⟨fun p v => rfl, fun p t v L => ?_, fun p t v L => ?_, ?_, ?_, ?_⟩
  · simp only [Grid.generate_grid_levels, Finset.mem_filter, Finset.mem_image,
      Finset.mem_range]
    constructor
    · rintro ⟨⟨i, hi, hfi⟩, hpos⟩
      refine ⟨i + 1, by omega, by omega, ?_, hpos⟩
      rw [← hfi]
      push_cast
      ring
    · rintro ⟨i, h1i, hile, hL, hpos⟩
      refine ⟨⟨i - 1, by omega, ?_⟩, hpos⟩
      rw [hL, Nat.cast_sub h1i]
      push_cast
      ring
  · simp only [Grid.generate_grid_levels, Finset.mem_image, Finset.mem_range]
    constructor
    · rintro ⟨i, hi, hfi⟩
      refine ⟨i + 1, by omega, by omega, ?_⟩
      rw [← hfi]
      push_cast
      ring
    · rintro ⟨i, h1i, hile, hL⟩
      refine ⟨i - 1, by omega, ?_⟩
      rw [hL, Nat.cast_sub h1i]
      push_cast
      ring
  · intro s hs
    simp only [Grid.process_instrument_signal, Option.getD_some, if_pos hs]
    exact ⟨rfl, rfl⟩
  · have hempty : ((∅ : Finset ℚ) = ∅ ∨ (∅ : Finset ℚ) = ∅) := Or.inl rfl
    simp only [Grid.process_instrument_signal, Option.getD_none,
      if_pos hempty]
    exact ⟨rfl, rfl⟩
  · intro s h1 h2
    rw [Grid.process_eq_no_regen cfg s price sma h1 h2]
    exact ⟨rfl, rfl⟩

/-- Witness for C3: a first-cycle state with empty level sets regenerates
both level sets from the current price. -/
theorem c3_level_generation_witness :
    ((∅ : Finset ℚ) = ∅ ∨ (∅ : Finset ℚ) = ∅) ∧
    (Grid.process_instrument_signal
        { band_percentage := 1 / 20, tma_period := 14,
          grid_spacing_percentage := 1 / 50, max_grid_levels := 10,
          price_history_length := 50 } (some 100) (some 100)
        (some { current_price := 100, price_history := [100],
                buy_levels := ∅, sell_levels := ∅, filled_levels := ∅,
                grid_spacing := 2, last_grid_zone := GridZone.BetweenBands,
                last_tma_state := TmaState.Sideways })).2.map
        InstrumentGridState.buy_levels =
      some (Grid.generate_grid_levels
        { band_percentage := 1 / 20, tma_period := 14,
          grid_spacing_percentage := 1 / 50, max_grid_levels := 10,
          price_history_length := 50 } 100
        (Grid.calculate_tma
          { band_percentage := 1 / 20, tma_period := 14,
            grid_spacing_percentage := 1 / 50, max_grid_levels := 10,
            price_history_length := 50 } 100)
        (Grid.calculate_volatility
          { band_percentage := 1 / 20, tma_period := 14,
            grid_spacing_percentage := 1 / 50, max_grid_levels := 10,
            price_history_length := 50 }
          (Grid.calculate_bands
            { band_percentage := 1 / 20, tma_period := 14,
              grid_spacing_percentage := 1 / 50, max_grid_levels := 10,
              price_history_length := 50 }
            (Grid.calculate_tma
              { band_percentage := 1 / 20, tma_period := 14,
                grid_spacing_percentage := 1 / 50, max_grid_levels := 10,
                price_history_length := 50 } 100)).1
          (Grid.calculate_bands
            { band_percentage := 1 / 20, tma_period := 14,
              grid_spacing_percentage := 1 / 50, max_grid_levels := 10,
              price_history_length := 50 }
            (Grid.calculate_tma
              { band_percentage := 1 / 20, tma_period := 14,
                grid_spacing_percentage := 1 / 50, max_grid_levels := 10,
                price_history_length := 50 } 100)).2
          (Grid.calculate_tma
            { band_percentage := 1 / 20, tma_period := 14,
              grid_spacing_percentage := 1 / 50, max_grid_levels := 10,
              price_history_length := 50 } 100))).1 := by
  refine ⟨Or.inl rfl, ?_⟩
  exact ((c3_level_generation
      { band_percentage := 1 / 20, tma_period := 14,
        grid_spacing_percentage := 1 / 50, max_grid_levels := 10,
        price_history_length := 50 } 100 100).2.2.2.1
    { current_price := 100, price_history := [100],
      buy_levels := ∅, sell_levels := ∅, filled_levels := ∅,
      grid_spacing := 2, last_grid_zone := GridZone.BetweenBands,
      last_tma_state := TmaState.Sideways } (Or.inl rfl)).1

/-- **C1** Grid-level crossing detection and signal emission: a buy level
crosses iff it is unfilled and `previous_price > level ≥ current_price`, a
sell level crosses iff it is unfilled and
`previous_price < level ≤ current_price`; each crossing yields exactly one
signal of the matching side priced at the level, every crossed level is
inserted into `filled_levels`, and a level already filled never yields a
level signal again (the level sets being non-empty, so no regeneration). -/
theorem c1_crossing_detection (cfg : GridConfig) (s : InstrumentGridState)
    (price sma : ℚ) (h1 : s.buy_levels ≠ ∅) (h2 : s.sell_levels ≠ ∅) :
    (∀ L : ℚ, (L, GridLevelType.Buy) ∈
        Grid.check_grid_level_crosses s price ↔
      L ∈ s.buy_levels ∧ L ∉ s.filled_levels ∧ L < s.current_price ∧
        price ≤ L) ∧
    (∀ L : ℚ, (L, GridLevelType.Sell) ∈
        Grid.check_grid_level_crosses s price ↔
      L ∈ s.sell_levels ∧ L ∉ s.filled_levels ∧ s.current_price < L ∧
        L ≤ price) ∧
    (∀ (L : ℚ) (ty : GridLevelType),
      (Grid.process_instrument_signal cfg (some price) (some sma)
          (some s)).1.countP
        (fun g => decide (g.grid_level = some L ∧ g.price = L ∧
          g.signal_type = Grid.signal_type_of_level ty)) =
      if (L, ty) ∈ Grid.check_grid_level_crosses s price then 1 else 0) ∧
    (∀ L : ℚ, ∃ st',
      (Grid.process_instrument_signal cfg (some price) (some sma)
          (some s)).2 = some st' ∧
        (L ∈ st'.filled_levels ↔ L ∈ s.filled_levels ∨
          ∃ ty, (L, ty) ∈ Grid.check_grid_level_crosses s price)) ∧
    (∀ L : ℚ, L ∈ s.filled_levels →
      ∀ g ∈ (Grid.process_instrument_signal cfg (some price) (some sma)
          (some s)).1, g.grid_level ≠ some L) := by
  have hP := Grid.process_eq_no_regen cfg s price sma h1 h2
  refine ⟨Grid.mem_check_crosses_buy s price,
    Grid.mem_check_crosses_sell s price, ?_, ?_, ?_⟩
  · intro L ty
    rw [hP]
    dsimp only
    by_cases hcr : Grid.check_grid_level_crosses s price = []
    · rw [hcr]
      simp only [List.map_nil, List.isEmpty_nil, if_true,
        List.not_mem_nil, if_false]
      split
      · split
        · simp
        · simp
      · simp
    · have hne : ((Grid.check_grid_level_crosses s price).map
          (fun c : ℚ × GridLevelType =>
            ({ signal_type := Grid.signal_type_of_level c.2, price := c.1,
               tma := Grid.calculate_tma cfg sma,
               high_band :=
                 (Grid.calculate_bands cfg (Grid.calculate_tma cfg sma)).1,
               low_band :=
                 (Grid.calculate_bands cfg (Grid.calculate_tma cfg sma)).2,
               volatility := Grid.calculate_volatility cfg
                 (Grid.calculate_bands cfg (Grid.calculate_tma cfg sma)).1
                 (Grid.calculate_bands cfg (Grid.calculate_tma cfg sma)).2
                 (Grid.calculate_tma cfg sma),
               grid_level := some c.1 } : GridSignal))).isEmpty = false := by
        simp [List.isEmpty_iff, hcr]
      rw [hne]
      simp only [Bool.false_eq_true, if_false]
      rw [List.countP_map]
      refine (countP_eq_of_nodup _ _ (L, ty)
        (Grid.check_crosses_nodup s price) ?_).trans
        (if_congr Iff.rfl rfl rfl)
      rintro ⟨a, b⟩
      simp only [Function.comp_apply, decide_eq_true_eq, Option.some.injEq,
        Prod.mk.injEq]
      constructor
      · rintro ⟨h, -, hty⟩
        refine ⟨h, ?_⟩
        cases b <;> cases ty <;> simp_all [Grid.signal_type_of_level]
      · rintro ⟨hL, hty⟩
        subst hL
        subst hty
        exact ⟨rfl, rfl, rfl⟩
  · intro L
    rw [hP]
    dsimp only
    exact ⟨_, rfl, mem_foldl_insert L _ _⟩
  · intro L hL g hg
    rw [hP] at hg
    dsimp only at hg
    by_cases hcr : Grid.check_grid_level_crosses s price = []
    · rw [hcr] at hg
      simp only [List.map_nil, List.isEmpty_nil, if_true] at hg
      split at hg
      · split at hg
        · simp at hg
        · simp only [List.mem_singleton] at hg
          subst hg
          simp
      · simp at hg
    · have hne : ((Grid.check_grid_level_crosses s price).map
          (fun c : ℚ × GridLevelType =>
            ({ signal_type := Grid.signal_type_of_level c.2, price := c.1,
               tma := Grid.calculate_tma cfg sma,
               high_band :=
                 (Grid.calculate_bands cfg (Grid.calculate_tma cfg sma)).1,
               low_band :=
                 (Grid.calculate_bands cfg (Grid.calculate_tma cfg sma)).2,
               volatility := Grid.calculate_volatility cfg
                 (Grid.calculate_bands cfg (Grid.calculate_tma cfg sma)).1
                 (Grid.calculate_bands cfg (Grid.calculate_tma cfg sma)).2
                 (Grid.calculate_tma cfg sma),
               grid_level := some c.1 } : GridSignal))).isEmpty = false := by
        simp [List.isEmpty_iff, hcr]
      rw [hne] at hg
      simp only [Bool.false_eq_true, if_false, List.mem_map] at hg
      obtain ⟨c, hcmem, hc⟩ := hg
      have hnf := Grid.not_filled_of_mem_crosses s price c hcmem
      intro hcon
      rw [← hc] at hcon
      simp only [Option.some.injEq] at hcon
      rw [hcon] at hnf
      exact hnf hL

/-- Witness for C1, the spec's example: buy levels {95, 90}, previous
price 96, current price 94 yields exactly one Buy level signal at 95 and
none at 90. -/
theorem c1_crossing_detection_witness :
    (({95, 90} : Finset ℚ) ≠ ∅ ∧ ({200} : Finset ℚ) ≠ ∅) ∧
    (Grid.process_instrument_signal
        { band_percentage := 1 / 2, tma_period := 14,
          grid_spacing_percentage := 1 / 50, max_grid_levels := 10,
          price_history_length := 50 } (some 94) (some 100)
        (some { current_price := 96, price_history := [96],
                buy_levels := {95, 90}, sell_levels := {200},
                filled_levels := ∅, grid_spacing := 1,
                last_grid_zone := GridZone.BetweenBands,
                last_tma_state := TmaState.Sideways })).1.countP
      (fun g => decide (g.grid_level = some 95 ∧ g.price = 95 ∧
        g.signal_type = Grid.signal_type_of_level GridLevelType.Buy)) = 1 ∧
    (Grid.process_instrument_signal
        { band_percentage := 1 / 2, tma_period := 14,
          grid_spacing_percentage := 1 / 50, max_grid_levels := 10,
          price_history_length := 50 } (some 94) (some 100)
        (some { current_price := 96, price_history := [96],
                buy_levels := {95, 90}, sell_levels := {200},
                filled_levels := ∅, grid_spacing := 1,
                last_grid_zone := GridZone.BetweenBands,
                last_tma_state := TmaState.Sideways })).1.countP
      (fun g => decide (g.grid_level = some 90 ∧ g.price = 90 ∧
        g.signal_type = Grid.signal_type_of_level GridLevelType.Buy)) = 0 := by
  have h := c1_crossing_detection
    { band_percentage := 1 / 2, tma_period := 14,
      grid_spacing_percentage := 1 / 50, max_grid_levels := 10,
      price_history_length := 50 }
    { current_price := 96, price_history := [96],
      buy_levels := {95, 90}, sell_levels := {200}, filled_levels := ∅,
      grid_spacing := 1, last_grid_zone := GridZone.BetweenBands,
      last_tma_state := TmaState.Sideways } 94 100 (by simp) (by simp)
  have hA : ((95 : ℚ), GridLevelType.Buy) ∈ Grid.check_grid_level_crosses
      { current_price := 96, price_history := [96],
        buy_levels := {95, 90}, sell_levels := {200}, filled_levels := ∅,
        grid_spacing := 1, last_grid_zone := GridZone.BetweenBands,
        last_tma_state := TmaState.Sideways } 94 :=
    (h.1 95).mpr ⟨by simp, by simp, by norm_num, by norm_num⟩
  have hB : ((90 : ℚ), GridLevelType.Buy) ∉ Grid.check_grid_level_crosses
      { current_price := 96, price_history := [96],
        buy_levels := {95, 90}, sell_levels := {200}, filled_levels := ∅,
        grid_spacing := 1, last_grid_zone := GridZone.BetweenBands,
        last_tma_state := TmaState.Sideways } 94 := by
    intro hm
    have hc := (h.1 90).mp hm
    norm_num at hc
  refine ⟨⟨by simp, by simp⟩, ?_, ?_⟩
  · exact (h.2.2.1 95 GridLevelType.Buy).trans (if_pos hA)
  · exact (h.2.2.1 90 GridLevelType.Buy).trans (if_neg hB)

/-! ## VWAP (src/algorithm/indicators/vwap.rs)

`DateTime<Utc>` timestamps are modelled as integers and `Duration` as
naturals; `signed_duration_since(..).to_std().unwrap_or_default()` maps a
negative elapsed time to zero, i.e. `Int.toNat`. -/

/-- `VwapIndicator` state (vwap.rs lines 7-15). -/
structure VwapIndicator where
  price_volume_sum : ℚ
  volume_sum : ℚ
  trades : List (ℚ × ℚ × ℤ)
  reset_period : ℕ
  last_reset : Option ℤ
  current_vwap : Option ℚ
deriving DecidableEq

namespace VwapIndicator

/-- `VwapIndicator::new` (vwap.rs lines 26-35). -/
def new (reset_period : ℕ) : VwapIndicator :=
  ⟨0, 0, [], reset_period, none, none⟩

/-- `VwapIndicator::should_reset` (vwap.rs lines 89-95). -/
def should_reset (v : VwapIndicator) (timestamp : ℤ) : Bool :=
  match v.last_reset with
  | some last_reset =>
      decide (v.reset_period ≤ (timestamp - last_reset).toNat)
  | none => true

/-- `VwapIndicator::reset` (vwap.rs lines 97-103). -/
def reset (v : VwapIndicator) (timestamp : ℤ) : VwapIndicator :=
  { v with
    price_volume_sum := 0
    volume_sum := 0
    trades := []
    current_vwap := none
    last_reset := some timestamp }

/-- `VwapIndicator::update` (vwap.rs lines 52-73). -/
def update (v : VwapIndicator) (price volume : ℚ) (timestamp : ℤ) :
    VwapIndicator :=
  let v := if v.should_reset timestamp then v.reset timestamp else v
  let v := { v with
    trades := v.trades ++ [(price, volume, timestamp)]
    price_volume_sum := v.price_volume_sum + price * volume
    volume_sum := v.volume_sum + volume }
  if 0 < v.volume_sum then
    { v with current_vwap := some (v.price_volume_sum / v.volume_sum) }
  else v

/-- `VwapIndicator::value` (vwap.rs lines 75-77). -/
def value (v : VwapIndicator) : Option ℚ := v.current_vwap

end VwapIndicator

theorem VwapIndicator.update_preserves_undef (v : VwapIndicator)
    (p vol : ℚ) (t : ℤ) (hvol : 0 ≤ vol)
    (hv : v.volume_sum ≤ 0 → v.current_vwap = none) :
    (v.update p vol t).volume_sum ≤ 0 →
      (v.update p vol t).current_vwap = none := by
  unfold VwapIndicator.update
  set w := if v.should_reset t then v.reset t else v with hw
  have hwinv : w.volume_sum ≤ 0 → w.current_vwap = none := by
    rw [hw]
    split
    · intro _; rfl
    · exact hv
  dsimp only
  split
  · intro hle
    dsimp only at *
    linarith
  · intro hle
    dsimp only at hle ⊢
    exact hwinv (by linarith)

theorem VwapIndicator.fold_undef (rp : ℕ) (updates : List (ℚ × ℚ × ℤ))
    (h : ∀ u ∈ updates, 0 ≤ (u : ℚ × ℚ × ℤ).2.1) :
    ((updates.foldl (fun s u => s.update u.1 u.2.1 u.2.2)
        (VwapIndicator.new rp)).volume_sum ≤ 0 →
      (updates.foldl (fun s u => s.update u.1 u.2.1 u.2.2)
        (VwapIndicator.new rp)).current_vwap = none) := by
  suffices hgen : ∀ (l : List (ℚ × ℚ × ℤ)) (v : VwapIndicator),
      (∀ u ∈ l, 0 ≤ (u : ℚ × ℚ × ℤ).2.1) →
      (v.volume_sum ≤ 0 → v.current_vwap = none) →
      ((l.foldl (fun s u => s.update u.1 u.2.1 u.2.2) v).volume_sum ≤ 0 →
        (l.foldl (fun s u => s.update u.1 u.2.1 u.2.2) v).current_vwap =
          none) by
    exact hgen updates (VwapIndicator.new rp) h (fun _ => rfl)
  intro l
  induction l with
  | nil => intro v _ hv; exact hv
  | cons u us ih =>
    intro v hl hv
    simp only [List.foldl_cons]
    exact ih (v.update u.1 u.2.1 u.2.2)
      (fun x hx => hl x (List.mem_cons_of_mem u hx))
      (VwapIndicator.update_preserves_undef v u.1 u.2.1 u.2.2
        (hl u (List.mem_cons_self u us)) hv)

/-- **C6** VWAP: two updates in the same reset window accumulate to the
volume-weighted mean; an update at least `reset_period` after the last
reset (or the first ever) clears the accumulators, stamps `last_reset`,
and values to the new price; the value stays undefined while the
accumulated volume since the reset is not positive. -/
theorem c6_vwap (rp : ℕ) :
    (∀ (p1 v1 p2 v2 : ℚ) (t1 t2 : ℤ), 0 < v1 + v2 →
      (t2 - t1).toNat < rp →
      (((VwapIndicator.new rp).update p1 v1 t1).update p2 v2 t2).value =
        some ((p1 * v1 + p2 * v2) / (v1 + v2))) ∧
    (∀ (v : VwapIndicator) (p vol : ℚ) (t : ℤ), 0 < vol →
      (v.last_reset = none ∨ ∃ r, v.last_reset = some r ∧
        (v.reset_period : ℤ) ≤ t - r) →
      v.update p vol t =
        ⟨p * vol, vol, [(p, vol, t)], v.reset_period, some t, some p⟩) ∧
    (∀ updates : List (ℚ × ℚ × ℤ),
      (∀ u ∈ updates, 0 ≤ (u : ℚ × ℚ × ℤ).2.1) →
      (updates.foldl (fun s u => s.update u.1 u.2.1 u.2.2)
          (VwapIndicator.new rp)).volume_sum ≤ 0 →
      (updates.foldl (fun s u => s.update u.1 u.2.1 u.2.2)
          (VwapIndicator.new rp)).value = none) := by
  refine ⟨?_, ?_, ?_⟩
  · intro p1 v1 p2 v2 t1 t2 hv ht
    have hs1 : (VwapIndicator.new rp).update p1 v1 t1 =
        (if 0 < v1 then
          ⟨p1 * v1, v1, [(p1, v1, t1)], rp, some t1, some (p1 * v1 / v1)⟩
         else ⟨p1 * v1, v1, [(p1, v1, t1)], rp, some t1, none⟩) := by
      unfold VwapIndicator.update VwapIndicator.new VwapIndicator.should_reset
        VwapIndicator.reset
      split_ifs <;> simp_all
    have hstep : ∀ s : VwapIndicator, s.price_volume_sum = p1 * v1 →
        s.volume_sum = v1 → s.last_reset = some t1 → s.reset_period = rp →
        (s.update p2 v2 t2).current_vwap =
          some ((p1 * v1 + p2 * v2) / (v1 + v2)) := by
      intro s hp hsum hlr hrp
      have hsr : s.should_reset t2 = false := by
        unfold VwapIndicator.should_reset
        rw [hlr, hrp]
        simp only [decide_eq_false_iff_not, not_le]
        exact ht
      unfold VwapIndicator.update
      rw [hsr]
      simp only [Bool.false_eq_true, if_false]
      rw [hp, hsum, if_pos (by linarith : (0 : ℚ) < v1 + v2)]
    show (VwapIndicator.update _ p2 v2 t2).current_vwap = _
    rw [hs1]
    split_ifs with h0
    · exact hstep _ rfl rfl rfl rfl
    · exact hstep _ rfl rfl rfl rfl
  · intro v p vol t hvol hres
    have hsr : v.should_reset t = true := by
      unfold VwapIndicator.should_reset
      rcases hres with h | ⟨r, hr, hle⟩
      · rw [h]
      · rw [hr]
        simp only [decide_eq_true_eq]
        omega
    unfold VwapIndicator.update
    rw [hsr]
    simp only [if_true, VwapIndicator.reset]
    rw [if_pos (by linarith : (0 : ℚ) < 0 + vol)]
    simp only [zero_add, List.nil_append]
    congr 1
    rw [mul_div_assoc, div_self (ne_of_gt hvol), mul_one]
  · exact VwapIndicator.fold_undef rp

/-- Witness for C6: two same-window trades of (100, 10) and (102, 20),
a reset-triggering trade, and the empty trade list. -/
theorem c6_vwap_witness :
    ((0 : ℚ) < 10 + 20 ∧ ((5 : ℤ) - 0).toNat < 10 ∧
      (((VwapIndicator.new 10).update 100 10 0).update 102 20 5).value =
        some ((100 * 10 + 102 * 20) / (10 + 20))) ∧
    ((0 : ℚ) < 5 ∧
      (VwapIndicator.new 1).update 200 5 0 =
        ⟨200 * 5, 5, [(200, 5, 0)], 1, some 0, some 200⟩) ∧
    (([] : List (ℚ × ℚ × ℤ)).foldl
        (fun s u => s.update u.1 u.2.1 u.2.2)
        (VwapIndicator.new 10)).value = none := by
  refine ⟨⟨by norm_num, by norm_num, ?_⟩, ⟨by norm_num, ?_⟩, ?_⟩
  · exact (c6_vwap 10).1 100 10 102 20 0 5 (by norm_num) (by norm_num)
  · exact (c6_vwap 1).2.1 (VwapIndicator.new 1) 200 5 0 (by norm_num)
      (Or.inl rfl)
  · exact (c6_vwap 10).2.2 [] (by simp) (by norm_num [VwapIndicator.new])

/-! ## RSI, standalone indicator (src/algorithm/indicators/rsi.rs)

Rolling time-window RSI with explicit duplicate suppression. -/

/-- `RSI` state (rsi.rs lines 8-18). -/
structure RSI where
  period : ℕ
  gains : List (ℚ × ℤ)
  losses : List (ℚ × ℤ)
  last_price : Option ℚ
  avg_gain : Option ℚ
  avg_loss : Option ℚ
  last_update : Option ℤ
  window_duration : ℕ
deriving DecidableEq

namespace RSI

/-- `RSI::new` (rsi.rs lines 21-32): 180-second rolling window. -/
def new (period : ℕ) : RSI :=
  ⟨period, [], [], none, none, none, none, 180⟩

/-- `RSI::remove_old_entries` (rsi.rs lines 34-42): pop entries strictly
older than the cutoff from the front. -/
def remove_old_entries (queue : List (ℚ × ℤ)) (cutoff_time : ℤ) :
    List (ℚ × ℤ) :=
  queue.dropWhile (fun e => decide (e.2 < cutoff_time))

/-- `RSI::update_with_time` (rsi.rs lines 44-80). -/
def update_with_time (r : RSI) (price : ℚ) (timestamp : ℤ) : RSI :=
  match r.last_price with
  | some last_price =>
    if last_price = price then r
    else
      let change := price - last_price
      let gains := if 0 < change then r.gains ++ [(change, timestamp)]
                   else r.gains ++ [(0, timestamp)]
      let losses := if 0 < change then r.losses ++ [((0 : ℚ), timestamp)]
                    else r.losses ++ [(|change|, timestamp)]
      let cutoff_time := timestamp - (r.window_duration : ℤ)
      let gains := remove_old_entries gains cutoff_time
      let losses := remove_old_entries losses cutoff_time
      let avgs :=
        if r.period ≤ gains.length then
          (some ((gains.map Prod.fst).sum / (gains.length : ℚ)),
           some ((losses.map Prod.fst).sum / (losses.length : ℚ)))
        else (r.avg_gain, r.avg_loss)
      { r with
        gains := gains
        losses := losses
        last_price := some price
        avg_gain := avgs.1
        avg_loss := avgs.2
        last_update := some timestamp }
  | none =>
      { r with last_price := some price, last_update := some timestamp }

/-- `RSI::value` (rsi.rs lines 82-94). -/
def value (r : RSI) : Option ℚ :=
  match r.avg_gain, r.avg_loss with
  | some avg_gain, some avg_loss =>
      if avg_loss = 0 then some 100
      else some (100 - 100 / (1 + avg_gain / avg_loss))
  | _, _ => none

end RSI

/-! ## RSI embedded in AlgorithmData (src/algorithm/data.rs)

Count-bounded, sample-interval-gated RSI; named `DataRSI` here because
the Rust source declares a second `RSI` type in data.rs. -/

/-- `RSI` state in data.rs (lines 43-53). -/
structure DataRSI where
  period : ℕ
  gains : List ℚ
  losses : List ℚ
  last_price : Option ℚ
  avg_gain : Option ℚ
  avg_loss : Option ℚ
  last_update : Option ℤ
  sample_interval : ℕ
deriving DecidableEq

namespace DataRSI

/-- `RSI::new` in data.rs (lines 56-67): 10-second sample interval. -/
def new (period : ℕ) : DataRSI :=
  ⟨period, [], [], none, none, none, none, 10⟩

/-- `RSI::update_with_time` in data.rs (lines 69-106): time-gated, no
duplicate-price suppression; keeps only the most recent `period` deltas. -/
def update_with_time (r : DataRSI) (price : ℚ) (timestamp : ℤ) : DataRSI :=
  let gated : Bool :=
    match r.last_update with
    | some last_update =>
        decide ((timestamp - last_update).toNat < r.sample_interval)
    | none => false
  if gated then r
  else
    match r.last_price with
    | some last_price =>
      let change := price - last_price
      let gains := if 0 < change then r.gains ++ [change] else r.gains ++ [0]
      let losses := if 0 < change then r.losses ++ [(0 : ℚ)]
                    else r.losses ++ [|change|]
      let gains := if r.period < gains.length then gains.tail else gains
      let losses := if r.period < losses.length then losses.tail else losses
      let avgs :=
        if gains.length = r.period then
          (some (gains.sum / (r.period : ℚ)),
           some (losses.sum / (r.period : ℚ)))
        else (r.avg_gain, r.avg_loss)
      { r with
        gains := gains
        losses := losses
        last_price := some price
        avg_gain := avgs.1
        avg_loss := avgs.2
        last_update := some timestamp }
    | none =>
        { r with last_price := some price, last_update := some timestamp }

/-- `RSI::value` in data.rs (lines 108-120), identical formula. -/
def value (r : DataRSI) : Option ℚ :=
  match r.avg_gain, r.avg_loss with
  | some avg_gain, some avg_loss =>
      if avg_loss = 0 then some 100
      else some (100 - 100 / (1 + avg_gain / avg_loss))
  | _, _ => none

end DataRSI

/-! ### Supporting lemmas about the RSI states -/

theorem mem_of_mem_dropWhile {α : Type} (p : α → Bool) (l : List α) (a : α)
    (h : a ∈ l.dropWhile p) : a ∈ l := by
  induction l with
  | nil => simp [List.dropWhile] at h
  | cons b t ih =>
    rw [List.dropWhile_cons] at h
    split at h
    · exact List.mem_cons_of_mem b (ih h)
    · exact h

theorem RSI.update_nonneg (r : RSI) (p : ℚ) (t : ℤ)
    (hg : ∀ e ∈ r.gains, 0 ≤ (e : ℚ × ℤ).1)
    (hl : ∀ e ∈ r.losses, 0 ≤ (e : ℚ × ℤ).1)
    (hag : ∀ g, r.avg_gain = some g → 0 ≤ g)
    (hal : ∀ l, r.avg_loss = some l → 0 ≤ l) :
    (∀ e ∈ (r.update_with_time p t).gains, 0 ≤ (e : ℚ × ℤ).1) ∧
    (∀ e ∈ (r.update_with_time p t).losses, 0 ≤ (e : ℚ × ℤ).1) ∧
    (∀ g, (r.update_with_time p t).avg_gain = some g → 0 ≤ g) ∧
    (∀ l, (r.update_with_time p t).avg_loss = some l → 0 ≤ l) := by
  unfold RSI.update_with_time
  cases hlp : r.last_price with
  | none => exact ⟨hg, hl, hag, hal⟩
  | some lp =>
    dsimp only
    by_cases hdup : lp = p
    · rw [if_pos hdup]
      exact ⟨hg, hl, hag, hal⟩
    · rw [if_neg hdup]
      dsimp only
      set g' := RSI.remove_old_entries
        (if 0 < p - lp then r.gains ++ [(p - lp, t)]
         else r.gains ++ [((0 : ℚ), t)]) (t - (r.window_duration : ℤ))
        with hgdef
      set l' := RSI.remove_old_entries
        (if 0 < p - lp then r.losses ++ [((0 : ℚ), t)]
         else r.losses ++ [(|p - lp|, t)]) (t - (r.window_duration : ℤ))
        with hldef
      have hgmem : ∀ e ∈ g', 0 ≤ (e : ℚ × ℤ).1 := by
        intro e he
        have hin := mem_of_mem_dropWhile _ _ _ he
        split at hin
        · rcases List.mem_append.mp hin with h | h
          · exact hg e h
          · rw [List.mem_singleton.mp h]
            exact le_of_lt (by assumption)
        · rcases List.mem_append.mp hin with h | h
          · exact hg e h
          · rw [List.mem_singleton.mp h]
      have hlmem : ∀ e ∈ l', 0 ≤ (e : ℚ × ℤ).1 := by
        intro e he
        have hin := mem_of_mem_dropWhile _ _ _ he
        split at hin
        · rcases List.mem_append.mp hin with h | h
          · exact hl e h
          · rw [List.mem_singleton.mp h]
        · rcases List.mem_append.mp hin with h | h
          · exact hl e h
          · rw [List.mem_singleton.mp h]
            exact abs_nonneg _
      refine ⟨hgmem, hlmem, ?_, ?_⟩
      · intro g hsome
        split at hsome
        · simp only [Option.some.injEq] at hsome
          rw [← hsome]
          refine div_nonneg (List.sum_nonneg ?_) (Nat.cast_nonneg _)
          intro x hx
          obtain ⟨e, he, hex⟩ := List.mem_map.mp hx
          rw [← hex]
          exact hgmem e he
        · exact hag g hsome
      · intro l hsome
        split at hsome
        · simp only [Option.some.injEq] at hsome
          rw [← hsome]
          refine div_nonneg (List.sum_nonneg ?_) (Nat.cast_nonneg _)
          intro x hx
          obtain ⟨e, he, hex⟩ := List.mem_map.mp hx
          rw [← hex]
          exact hlmem e he
        · exact hal l hsome

theorem RSI.fold_nonneg (updates : List (ℚ × ℤ)) (r : RSI)
    (hg : ∀ e ∈ r.gains, 0 ≤ (e : ℚ × ℤ).1)
    (hl : ∀ e ∈ r.losses, 0 ≤ (e : ℚ × ℤ).1)
    (hag : ∀ g, r.avg_gain = some g → 0 ≤ g)
    (hal : ∀ l, r.avg_loss = some l → 0 ≤ l) :
    (∀ g, (updates.foldl (fun s u => s.update_with_time u.1 u.2)
        r).avg_gain = some g → 0 ≤ g) ∧
    (∀ l, (updates.foldl (fun s u => s.update_with_time u.1 u.2)
        r).avg_loss = some l → 0 ≤ l) := by
  induction updates generalizing r with
  | nil => exact ⟨hag, hal⟩
  | cons u us ih =>
    simp only [List.foldl_cons]
    obtain ⟨h1, h2, h3, h4⟩ := RSI.update_nonneg r u.1 u.2 hg hl hag hal
    exact ih (r.update_with_time u.1 u.2) h1 h2 h3 h4

theorem rsi_formula_bounds (g l : ℚ) (hg : 0 ≤ g) (hl : 0 < l) :
    0 ≤ 100 - 100 / (1 + g / l) ∧ 100 - 100 / (1 + g / l) < 100 := by
  have hx : 0 ≤ g / l := div_nonneg hg hl.le
  have hpos : 0 < 100 / (1 + g / l) := div_pos (by norm_num) (by linarith)
  have hle : 100 / (1 + g / l) ≤ 100 := div_le_self (by norm_num)
    (by linarith)
  constructor <;> linarith

theorem RSI.value_bound (r : RSI)
    (hag : ∀ g, r.avg_gain = some g → 0 ≤ g)
    (hal : ∀ l, r.avg_loss = some l → 0 ≤ l) :
    ∀ x, r.value = some x → 0 ≤ x ∧ x ≤ 100 := by
  intro x hx
  unfold RSI.value at hx
  rcases hgv : r.avg_gain with - | g <;> rcases hlv : r.avg_loss with - | l <;>
    rw [hgv, hlv] at hx
  · exact absurd hx (by simp)
  · exact absurd hx (by simp)
  · exact absurd hx (by simp)
  · split at hx
    case h_1 =>
      rename_i g2 l2 heq1 heq2
      simp only [Option.some.injEq] at heq1 heq2
      subst heq1
      subst heq2
      split at hx
      · simp only [Option.some.injEq] at hx
        rw [← hx]
        norm_num
      · rename_i hne
        simp only [Option.some.injEq] at hx
        rw [← hx]
        have hlpos : 0 < l := lt_of_le_of_ne (hal l hlv) (Ne.symm hne)
        have hb := rsi_formula_bounds g l (hag g hgv) hlpos
        exact ⟨hb.1, hb.2.le⟩
    case h_2 =>
      rename_i hcon
      exact (hcon g l rfl rfl).elim

theorem DataRSI.update_preserves_nonneg (r : DataRSI) (p : ℚ) (t : ℤ)
    (hg : ∀ e ∈ r.gains, 0 ≤ (e : ℚ))
    (hl : ∀ e ∈ r.losses, 0 ≤ (e : ℚ))
    (hag : ∀ g, r.avg_gain = some g → 0 ≤ g)
    (hal : ∀ l, r.avg_loss = some l → 0 ≤ l) :
    (∀ e ∈ (r.update_with_time p t).gains, 0 ≤ (e : ℚ)) ∧
    (∀ e ∈ (r.update_with_time p t).losses, 0 ≤ (e : ℚ)) ∧
    (∀ g, (r.update_with_time p t).avg_gain = some g → 0 ≤ g) ∧
    (∀ l, (r.update_with_time p t).avg_loss = some l → 0 ≤ l) := by
  unfold DataRSI.update_with_time
  dsimp only
  split
  · exact ⟨hg, hl, hag, hal⟩
  · cases hlp : r.last_price with
    | none => exact ⟨hg, hl, hag, hal⟩
    | some lp =>
      dsimp only
      set g' := if r.period <
          (if 0 < p - lp then r.gains ++ [p - lp]
           else r.gains ++ [0]).length then
          (if 0 < p - lp then r.gains ++ [p - lp]
           else r.gains ++ [0]).tail
        else (if 0 < p - lp then r.gains ++ [p - lp] else r.gains ++ [0])
        with hgdef
      set l' := if r.period <
          (if 0 < p - lp then r.losses ++ [(0 : ℚ)]
           else r.losses ++ [|p - lp|]).length then
          (if 0 < p - lp then r.losses ++ [(0 : ℚ)]
           else r.losses ++ [|p - lp|]).tail
        else (if 0 < p - lp then r.losses ++ [(0 : ℚ)]
          else r.losses ++ [|p - lp|])
        with hldef
      have happ : ∀ (l0 : List ℚ) (x : ℚ), (∀ e ∈ l0, 0 ≤ e) → 0 ≤ x →
          ∀ e ∈ l0 ++ [x], 0 ≤ (e : ℚ) := by
        intro l0 x h0 hx e he
        rcases List.mem_append.mp he with h | h
        · exact h0 e h
        · rw [List.mem_singleton.mp h]
          exact hx
      have hgmem : ∀ e ∈ g', 0 ≤ (e : ℚ) := by
        intro e he
        rw [hgdef] at he
        split at he
        · split at he
          · exact happ _ _ hg (le_of_lt (by assumption)) e
              ((List.tail_sublist _).subset he)
          · exact happ _ _ hg (le_of_lt (by assumption)) e he
        · split at he
          · exact happ _ _ hg le_rfl e ((List.tail_sublist _).subset he)
          · exact happ _ _ hg le_rfl e he
      have hlmem : ∀ e ∈ l', 0 ≤ (e : ℚ) := by
        intro e he
        rw [hldef] at he
        split at he
        · split at he
          · exact happ _ _ hl le_rfl e ((List.tail_sublist _).subset he)
          · exact happ _ _ hl le_rfl e he
        · split at he
          · exact happ _ _ hl (abs_nonneg _) e
              ((List.tail_sublist _).subset he)
          · exact happ _ _ hl (abs_nonneg _) e he
      refine ⟨hgmem, hlmem, ?_, ?_⟩
      · intro g hsome
        split at hsome
        · simp only [Option.some.injEq] at hsome
          rw [← hsome]
          exact div_nonneg (List.sum_nonneg hgmem) (Nat.cast_nonneg _)
        · exact hag g hsome
      · intro l hsome
        split at hsome
        · simp only [Option.some.injEq] at hsome
          rw [← hsome]
          exact div_nonneg (List.sum_nonneg hlmem) (Nat.cast_nonneg _)
        · exact hal l hsome

theorem DataRSI.fold_preserves_nonneg (updates : List (ℚ × ℤ)) (r : DataRSI)
    (hg : ∀ e ∈ r.gains, 0 ≤ (e : ℚ))
    (hl : ∀ e ∈ r.losses, 0 ≤ (e : ℚ))
    (hag : ∀ g, r.avg_gain = some g → 0 ≤ g)
    (hal : ∀ l, r.avg_loss = some l → 0 ≤ l) :
    (∀ g, (updates.foldl (fun s u => s.update_with_time u.1 u.2)
        r).avg_gain = some g → 0 ≤ g) ∧
    (∀ l, (updates.foldl (fun s u => s.update_with_time u.1 u.2)
        r).avg_loss = some l → 0 ≤ l) := by
  induction updates generalizing r with
  | nil => exact ⟨hag, hal⟩
  | cons u us ih =>
    simp only [List.foldl_cons]
    obtain ⟨h1, h2, h3, h4⟩ := DataRSI.update_preserves_nonneg r u.1 u.2 hg hl hag hal
    exact ih (r.update_with_time u.1 u.2) h1 h2 h3 h4

theorem DataRSI.value_within_bounds (r : DataRSI)
    (hag : ∀ g, r.avg_gain = some g → 0 ≤ g)
    (hal : ∀ l, r.avg_loss = some l → 0 ≤ l) :
    ∀ x, r.value = some x → 0 ≤ x ∧ x ≤ 100 := by
  intro x hx
  unfold DataRSI.value at hx
  rcases hgv : r.avg_gain with - | g <;> rcases hlv : r.avg_loss with - | l <;>
    rw [hgv, hlv] at hx
  · exact absurd hx (by simp)
  · exact absurd hx (by simp)
  · exact absurd hx (by simp)
  · split at hx
    case h_1 =>
      rename_i g2 l2 heq1 heq2
      simp only [Option.some.injEq] at heq1 heq2
      subst heq1
      subst heq2
      split at hx
      · simp only [Option.some.injEq] at hx
        rw [← hx]
        norm_num
      · rename_i hne
        simp only [Option.some.injEq] at hx
        rw [← hx]
        have hlpos : 0 < l := lt_of_le_of_ne (hal l hlv) (Ne.symm hne)
        have hb := rsi_formula_bounds g l (hag g hgv) hlpos
        exact ⟨hb.1, hb.2.le⟩
    case h_2 =>
      rename_i hcon
      exact (hcon g l rfl rfl).elim

/-- C7 counterexample: the RSI embedded in data.rs does NOT suppress
duplicate prices. With period 2 and 10-unit sample interval, prices
10, 20, 10 give value 50; a fourth update repeating price 10 appends
zero gain/loss entries, evicts the oldest, and changes value to 0. -/
theorem c7_duplicate_counterexample :
    ((((DataRSI.new 2).update_with_time 10 0).update_with_time 20
        10).update_with_time 10 20).last_price = some 10 ∧
    ((((DataRSI.new 2).update_with_time 10 0).update_with_time 20
        10).update_with_time 10 20).value = some 50 ∧
    (((((DataRSI.new 2).update_with_time 10 0).update_with_time 20
        10).update_with_time 10 20).update_with_time 10 30).value =
      some 0 ∧
    (((((DataRSI.new 2).update_with_time 10 0).update_with_time 20
        10).update_with_time 10 20).update_with_time 10 30).value ≠
      ((((DataRSI.new 2).update_with_time 10 0).update_with_time 20
        10).update_with_time 10 20).value := by
  have h1 : (DataRSI.new 2).update_with_time 10 0 =
      ⟨2, [], [], some 10, none, none, some 0, 10⟩ := by
    norm_num [DataRSI.new, DataRSI.update_with_time]
  have h2 : (⟨2, [], [], some 10, none, none, some 0, 10⟩ :
      DataRSI).update_with_time 20 10 =
      ⟨2, [10], [0], some 20, none, none, some 10, 10⟩ := by
    norm_num [DataRSI.update_with_time]
  have h3 : (⟨2, [10], [0], some 20, none, none, some 10, 10⟩ :
      DataRSI).update_with_time 10 20 =
      ⟨2, [10, 0], [0, 10], some 10, some 5, some 5, some 20, 10⟩ := by
    norm_num [DataRSI.update_with_time]
  have h4 : (⟨2, [10, 0], [0, 10], some 10, some 5, some 5, some 20, 10⟩ :
      DataRSI).update_with_time 10 30 =
      ⟨2, [0, 0], [10, 0], some 10, some 0, some 5, some 30, 10⟩ := by
    norm_num [DataRSI.update_with_time]
  rw [h1, h2, h3, h4]
  refine ⟨rfl, ?_, ?_, ?_⟩
  · norm_num [DataRSI.value]
  · norm_num [DataRSI.value]
  · norm_num [DataRSI.value]

/-- **C7 (amended)** For the standalone RSI indicator
(src/algorithm/indicators/rsi.rs), an update whose price equals the
immediately prior recorded price changes nothing at all — the state,
hence the queues, averages and value(), is identical — so feeding the
same price repeatedly never changes value(). (The RSI copy embedded in
data.rs lacks this suppression; see the counterexample.) -/
theorem c7_duplicate_suppression (r : RSI) (p : ℚ) (t : ℤ) (ts : List ℤ)
    (h : r.last_price = some p) :
    r.update_with_time p t = r ∧
    ts.foldl (fun s u => s.update_with_time p u) r = r := by
  have h1 : ∀ t' : ℤ, r.update_with_time p t' = r := by
    intro t'
    unfold RSI.update_with_time
    rw [h]
    simp
  refine ⟨h1 t, ?_⟩
  induction ts with
  | nil => rfl
  | cons a as ih =>
    simp only [List.foldl_cons, h1 a]
    exact ih

/-- Witness for C7: a state whose last price is 10 is untouched by a
duplicate update at price 10. -/
theorem c7_duplicate_suppression_witness :
    ((RSI.new 2).update_with_time 10 0).last_price = some 10 ∧
    ((RSI.new 2).update_with_time 10 0).update_with_time 10 5 =
      (RSI.new 2).update_with_time 10 0 ∧
    [(7 : ℤ), 9].foldl (fun s u => s.update_with_time 10 u)
      ((RSI.new 2).update_with_time 10 0) =
      (RSI.new 2).update_with_time 10 0 := by
  have h := c7_duplicate_suppression ((RSI.new 2).update_with_time 10 0)
    10 5 [(7 : ℤ), 9] (by decide)
  exact ⟨by decide, h.1, h.2⟩

/-- **C8** RSI value: undefined until both averages are set; exactly 100
when the average loss is 0; otherwise `100 - 100/(1 + avg_gain/avg_loss)`,
which is in [0, 100) for a non-negative average gain and positive average
loss; and every value reachable by feeding updates to a fresh RSI (either
the standalone indicator or the data.rs copy) lies in [0, 100]. -/
theorem c8_rsi_range (P : ℕ) :
    (∀ r : RSI, (r.avg_gain = none ∨ r.avg_loss = none) →
      r.value = none) ∧
    (∀ (r : RSI) (g : ℚ), r.avg_gain = some g → r.avg_loss = some 0 →
      r.value = some 100) ∧
    (∀ (r : RSI) (g l : ℚ), r.avg_gain = some g → r.avg_loss = some l →
      l ≠ 0 → r.value = some (100 - 100 / (1 + g / l))) ∧
    (∀ g l : ℚ, 0 ≤ g → 0 < l →
      0 ≤ 100 - 100 / (1 + g / l) ∧ 100 - 100 / (1 + g / l) < 100) ∧
    (RSI.new P).value = none ∧
    (∀ (updates : List (ℚ × ℤ)) (x : ℚ),
      (updates.foldl (fun s u => s.update_with_time u.1 u.2)
        (RSI.new P)).value = some x → 0 ≤ x ∧ x ≤ 100) ∧
    (∀ (updates : List (ℚ × ℤ)) (x : ℚ),
      (updates.foldl (fun s u => s.update_with_time u.1 u.2)
        (DataRSI.new P)).value = some x → 0 ≤ x ∧ x ≤ 100) := by
  refine ⟨?_, ?_, ?_, rsi_formula_bounds, rfl, ?_, ?_⟩
  · intro r hnone
    rcases hnone with h | h
    · simp [RSI.value, h]
    · rcases hg : r.avg_gain with - | g <;> simp [RSI.value, h, hg]
  · intro r g hgv hlv
    unfold RSI.value
    rw [hgv, hlv]
    simp
  · intro r g l hgv hlv hne
    unfold RSI.value
    rw [hgv, hlv]
    simp [hne]
  · intro updates x
    have hinv := RSI.fold_nonneg updates (RSI.new P)
      (by intro e he; cases he) (by intro e he; cases he)
      (by intro g hcon; cases hcon) (by intro l hcon; cases hcon)
    exact RSI.value_bound _ hinv.1 hinv.2 x
  · intro updates x
    have hinv := DataRSI.fold_preserves_nonneg updates (DataRSI.new P)
      (by intro e he; cases he) (by intro e he; cases he)
      (by intro g hcon; cases hcon) (by intro l hcon; cases hcon)
    exact DataRSI.value_within_bounds _ hinv.1 hinv.2 x

/-- Witness for C8: all-gain updates drive the standalone RSI to exactly
100, and the data.rs RSI reaches 50 after a gain then a loss; both lie
in [0, 100]. -/
theorem c8_rsi_range_witness :
    (([((10 : ℚ), (0 : ℤ)), (20, 10)].foldl
        (fun s u => s.update_with_time u.1 u.2) (RSI.new 1)).value =
      some 100 ∧ (0 ≤ (100 : ℚ) ∧ (100 : ℚ) ≤ 100)) ∧
    (([((10 : ℚ), (0 : ℤ)), (20, 10), (10, 20)].foldl
        (fun s u => s.update_with_time u.1 u.2) (DataRSI.new 2)).value =
      some 50 ∧ (0 ≤ (50 : ℚ) ∧ (50 : ℚ) ≤ 100)) := by
  have ha1 : (RSI.new 1).update_with_time 10 0 =
      ⟨1, [], [], some 10, none, none, some 0, 180⟩ := by
    norm_num [RSI.new, RSI.update_with_time]
  have ha2 : (⟨1, [], [], some 10, none, none, some 0, 180⟩ :
      RSI).update_with_time 20 10 =
      ⟨1, [(10, 10)], [(0, 10)], some 20, some 10, some 0, some 10,
        180⟩ := by
    norm_num [RSI.update_with_time, RSI.remove_old_entries, List.dropWhile]
  have hav : ([((10 : ℚ), (0 : ℤ)), (20, 10)].foldl
      (fun s u => s.update_with_time u.1 u.2) (RSI.new 1)).value =
      some 100 := by
    simp only [List.foldl_cons, List.foldl_nil]
    rw [ha1, ha2]
    norm_num [RSI.value]
  have hb1 : (DataRSI.new 2).update_with_time 10 0 =
      ⟨2, [], [], some 10, none, none, some 0, 10⟩ := by
    norm_num [DataRSI.new, DataRSI.update_with_time]
  have hb2 : (⟨2, [], [], some 10, none, none, some 0, 10⟩ :
      DataRSI).update_with_time 20 10 =
      ⟨2, [10], [0], some 20, none, none, some 10, 10⟩ := by
    norm_num [DataRSI.update_with_time]
  have hb3 : (⟨2, [10], [0], some 20, none, none, some 10, 10⟩ :
      DataRSI).update_with_time 10 20 =
      ⟨2, [10, 0], [0, 10], some 10, some 5, some 5, some 20, 10⟩ := by
    norm_num [DataRSI.update_with_time]
  have hbv : ([((10 : ℚ), (0 : ℤ)), (20, 10), (10, 20)].foldl
      (fun s u => s.update_with_time u.1 u.2) (DataRSI.new 2)).value =
      some 50 := by
    simp only [List.foldl_cons, List.foldl_nil]
    rw [hb1, hb2, hb3]
    norm_num [DataRSI.value]
  constructor
  · exact ⟨hav, (c8_rsi_range 1).2.2.2.2.2.1
      [((10 : ℚ), (0 : ℤ)), (20, 10)] 100 hav⟩
  · exact ⟨hbv, (c8_rsi_range 2).2.2.2.2.2.2
      [((10 : ℚ), (0 : ℤ)), (20, 10), (10, 20)] 50 hbv⟩

end GridTrader
